import Mathlib

set_option maxRecDepth 100000

/-!
# Verification of the StreamDAB enhancement layer (ODR-AudioEnc)

Shallow embedding of the Thai metadata / DLS encoding pipeline
(`src/thai_metadata.cpp`, `thai_metadata.h`) and of the enhanced stream
processor (`src/security_utils.cpp`, `enhanced_stream.h`), together with
theorems settling the specification claims about them.

Modelling conventions:
* UTF-8 text is modelled at two levels.  Valid UTF-8 strings are in
  bijection with their codepoint sequences, so functions that only ever
  see decoded codepoints (`utf8_to_dab_thai` after validation,
  `calculate_thai_display_length`, `truncate_thai_text`,
  `analyze_language_composition`, `process_thai_text`) act on
  `List Nat` of codepoints.  Functions for which UTF-8 validity matters
  (`process_raw_metadata` and the cleaning helpers) act on `List Nat`
  of raw bytes, with an explicit UTF-8 decoder.
* C++ `double` arithmetic on gains and confidences is modelled over `ℚ`
  (the involved constants are rational); `sqrt`/`log10` in the RMS and
  silence computations are modelled over `ℝ`.
* `remove_control_characters` compares `char c >= 32`; the repository's
  tests (test_thai_metadata.cpp, ProcessThaiMetadata) require Thai UTF-8
  bytes (>= 0x80) to survive cleaning, so the comparison is modelled
  with unsigned-char semantics: a byte is kept iff it is >= 32 or is
  tab/newline/carriage-return.
* Threads, locks, wall-clock timestamps and the VLC handle are outside a
  shallow embedding; connection attempts are parametrised by an oracle
  giving the outcome of `test_stream_connectivity` and `VLCInput::open`
  per URL, and the monitor thread (spawned after a successful
  `start_stream`, irrelevant to the connection outcome) is omitted.
-/

namespace StreamDAB

/-! ## Thai utility predicates (src/thai_metadata.cpp, namespace ThaiUtils) -/

/-- `ThaiUtils::is_thai_consonant`: codepoint in [0x0E01, 0x0E2E]. -/
def is_thai_consonant (cp : Nat) : Bool :=
  0x0E01 ≤ cp && cp ≤ 0x0E2E

/-- `ThaiUtils::is_thai_vowel`: codepoint in [0x0E30, 0x0E3A] or [0x0E40, 0x0E44]. -/
def is_thai_vowel (cp : Nat) : Bool :=
  (0x0E30 ≤ cp && cp ≤ 0x0E3A) || (0x0E40 ≤ cp && cp ≤ 0x0E44)

/-- `ThaiUtils::is_thai_tone_mark`: codepoint in [0x0E48, 0x0E4B]. -/
def is_thai_tone_mark (cp : Nat) : Bool :=
  0x0E48 ≤ cp && cp ≤ 0x0E4B

/-- `ThaiUtils::is_thai_number`: codepoint in [0x0E50, 0x0E59]. -/
def is_thai_number (cp : Nat) : Bool :=
  0x0E50 ≤ cp && cp ≤ 0x0E59

/-- The zero-display-width test shared by `calculate_thai_display_length`
and `truncate_thai_text`: non-spacing vowels U+0E31..U+0E3A, tone marks,
and the cancellation mark U+0E4C do not add display width. -/
def is_zero_width (cp : Nat) : Bool :=
  (is_thai_vowel cp && 0x0E31 ≤ cp && cp ≤ 0x0E3A) ||
  is_thai_tone_mark cp || cp == 0x0E4C

/-! ## ThaiCharsetConverter -/

/-- `ThaiCharsetConverter::create_utf8_to_dab_thai_map`: the explicit
codepoint → DAB-Thai byte entries, in source order, with the ASCII range
0x20..0x7F identity-mapped (the loop at the end of the function). -/
def utf8_to_dab_thai_map : List (Nat × Nat) :=
  [(0x0E01, 0x81), (0x0E02, 0x82), (0x0E03, 0x83), (0x0E04, 0x84),
   (0x0E05, 0x85), (0x0E06, 0x86), (0x0E07, 0x87), (0x0E08, 0x88),
   (0x0E09, 0x89), (0x0E0A, 0x8A), (0x0E0B, 0x8B), (0x0E0C, 0x8C),
   (0x0E0D, 0x8D), (0x0E0E, 0x8E), (0x0E0F, 0x8F),
   (0x0E30, 0xB0), (0x0E31, 0xB1), (0x0E32, 0xB2), (0x0E33, 0xB3),
   (0x0E34, 0xB4), (0x0E35, 0xB5), (0x0E36, 0xB6), (0x0E37, 0xB7),
   (0x0E38, 0xB8), (0x0E39, 0xB9), (0x0E3A, 0xBA),
   (0x0E48, 0xC8), (0x0E49, 0xC9), (0x0E4A, 0xCA), (0x0E4B, 0xCB),
   (0x0E4C, 0xCC),
   (0x0E50, 0xD0), (0x0E51, 0xD1), (0x0E52, 0xD2), (0x0E53, 0xD3),
   (0x0E54, 0xD4), (0x0E55, 0xD5), (0x0E56, 0xD6), (0x0E57, 0xD7),
   (0x0E58, 0xD8), (0x0E59, 0xD9)] ++
  (List.range 0x60).map (fun i => (0x20 + i, 0x20 + i))

/-- Lookup in the codepoint → byte table (`utf8_to_dab_map_.find`). -/
def dab_map_find (cp : Nat) : Option Nat :=
  (utf8_to_dab_thai_map.find? (fun p => p.1 == cp)).map Prod.snd

/-- Per-codepoint body of the loop in `ThaiCharsetConverter::utf8_to_dab_thai`:
mapped codepoints use the table, unmapped ASCII 0x20..0x7F passes through,
anything else becomes the replacement character, ASCII 0x3F. -/
def dab_encode_char (cp : Nat) : Nat :=
  match dab_map_find cp with
  | some b => b
  | none => if 0x20 ≤ cp ∧ cp ≤ 0x7F then cp else 0x3F

/-- `ThaiCharsetConverter::utf8_to_dab_thai` on an already-decoded
codepoint sequence (the function first validates UTF-8 and decodes;
see `utf8_to_dab_thai_bytes` for the byte-level fallible version). -/
def utf8_to_dab_thai (cps : List Nat) : List Nat :=
  cps.map dab_encode_char

/-- Modelled from the spec: the header declares
`ThaiCharsetConverter::create_dab_thai_to_utf8_map` and
`dab_thai_to_utf8`, but their definitions are not in src/; the spec says
the codec "maintains one bidirectional codepoint↔byte table", so the
inverse mapping is modelled as the inversion of the forward table. -/
def dab_inverse_find (b : Nat) : Option Nat :=
  (utf8_to_dab_thai_map.find? (fun p => p.2 == b)).map Prod.fst

/-- `ThaiCharsetConverter::calculate_thai_display_length`: counts
codepoints, skipping the zero-width combining marks. -/
def calculate_thai_display_length (cps : List Nat) : Nat :=
  (cps.filter (fun cp => !is_zero_width cp)).length

/-- The loop of `ThaiCharsetConverter::truncate_thai_text`: keep
codepoints, counting display width, breaking at the first
width-adding codepoint once the budget is reached. -/
def truncate_loop (max_length : Nat) : List Nat → Nat → List Nat
  | [], _ => []
  | cp :: rest, cur =>
    if !is_zero_width cp && decide (max_length ≤ cur) then []
    else cp :: truncate_loop max_length rest (if !is_zero_width cp then cur + 1 else cur)

/-- `ThaiCharsetConverter::truncate_thai_text` on codepoints: return the
input unchanged when its display length fits, otherwise run the greedy
keep-loop from width 0. -/
def truncate_thai_text (cps : List Nat) (max_length : Nat) : List Nat :=
  if calculate_thai_display_length cps ≤ max_length then cps
  else truncate_loop max_length cps 0

/-! ## ThaiDLSProcessor -/

/-- ETSI TS 101 756 Thai profile charset indicator (thai_metadata.h). -/
def DAB_THAI_CHARSET : Nat := 0x0E

/-- DAB DLS maximum length (thai_metadata.h). -/
def MAX_DLS_LENGTH_THAI : Nat := 128

/-- `ThaiDLSProcessor::process_thai_text` with scrolling enabled (the
default constructor argument, and the configuration used by
`ThaiMetadataProcessor`): empty input gives an empty segment; if the
display width fits `max_segment_length_`, the DAB-encoded bytes are
emitted behind the charset indicator; otherwise the text is first
truncated to `max_segment_length_ - 1` display units. -/
def process_thai_text (max_segment_length : Nat) (cps : List Nat) : List Nat :=
  if cps = [] then []
  else
    let dab_text := utf8_to_dab_thai cps
    let display_width := calculate_thai_display_length cps
    if display_width ≤ max_segment_length then
      DAB_THAI_CHARSET :: dab_text
    else
      DAB_THAI_CHARSET :: utf8_to_dab_thai (truncate_thai_text cps (max_segment_length - 1))

/-! ## ThaiLanguageDetector -/

/-- `ThaiLanguageDetector::LanguageStats` (thai_metadata.h); the
percentage is a C++ `double`, modelled over `ℚ`. -/
structure LanguageStats where
  thai_char_count : Nat := 0
  english_char_count : Nat := 0
  total_char_count : Nat := 0
  thai_percentage : ℚ := 0
  has_thai_vowels : Bool := false
  has_thai_consonants : Bool := false
deriving Repr, DecidableEq

/-- Per-codepoint body of the loop in
`ThaiLanguageDetector::analyze_language_composition`. -/
def analyze_step (s : LanguageStats) (cp : Nat) : LanguageStats :=
  let s := { s with total_char_count := s.total_char_count + 1 }
  if 0x0E00 ≤ cp ∧ cp ≤ 0x0E7F then
    { s with
      thai_char_count := s.thai_char_count + 1
      has_thai_vowels := s.has_thai_vowels || is_thai_vowel cp
      has_thai_consonants := s.has_thai_consonants || is_thai_consonant cp }
  else if (0x41 ≤ cp ∧ cp ≤ 0x5A) ∨ (0x61 ≤ cp ∧ cp ≤ 0x7A) then
    { s with english_char_count := s.english_char_count + 1 }
  else s

/-- `ThaiLanguageDetector::analyze_language_composition` on decoded
codepoints: count each codepoint, then fill in `thai_percentage` when
the total is positive. -/
def analyze_language_composition (cps : List Nat) : LanguageStats :=
  let s := cps.foldl analyze_step {}
  if 0 < s.total_char_count then
    { s with thai_percentage :=
        (s.thai_char_count : ℚ) / (s.total_char_count : ℚ) }
  else s

/-- `ThaiLanguageDetector::get_thai_confidence`: 0 for the empty text,
otherwise the analyzed `thai_percentage`. -/
def get_thai_confidence (cps : List Nat) : ℚ :=
  if cps = [] then 0
  else (analyze_language_composition cps).thai_percentage

/-- `ThaiLanguageDetector::is_thai_text` (default threshold 0.7). -/
def is_thai_text (cps : List Nat) (threshold : ℚ) : Bool :=
  threshold ≤ get_thai_confidence cps

/-! ## BuddhistCalendar -/

/-- `ThaiMetadata::BuddhistDate` (thai_metadata.h), with its
value-initialized defaults. -/
structure BuddhistDate where
  year : Int := 0
  month : Int := 0
  day : Int := 0
  thai_month_name : String := ""
  is_valid : Bool := false
deriving Repr, DecidableEq

/-- `BuddhistCalendar::thai_month_names_` (index 0 is the empty
placeholder). -/
def thai_month_names : List String :=
  ["", "มกราคม", "กุมภาพันธ์", "มีนาคม", "เมษายน", "พฤษภาคม", "มิถุนายน",
   "กรกฎาคม", "สิงหาคม", "กันยายน", "ตุลาคม", "พฤศจิกายน", "ธันวาคม"]

/-- `BuddhistCalendar::get_thai_month_name`. -/
def get_thai_month_name (month : Int) : String :=
  if 1 ≤ month ∧ month ≤ 12 then thai_month_names.getD month.toNat ""
  else ""

/-- `BuddhistCalendar::is_valid_buddhist_date`: positive BE year,
month in [1,12], day in [1,31]. -/
def is_valid_buddhist_date (be_year month day : Int) : Bool :=
  0 < be_year && 1 ≤ month && month ≤ 12 && 1 ≤ day && day ≤ 31

/-- `BuddhistCalendar::gregorian_to_buddhist`: add 543 years and copy
month/day when the resulting Buddhist date passes validation, else the
default (invalid) date. -/
def gregorian_to_buddhist (year month day : Int) : BuddhistDate :=
  if is_valid_buddhist_date (year + 543) month day then
    { year := year + 543, month := month, day := day,
      thai_month_name := get_thai_month_name month, is_valid := true }
  else {}

/-! ## Byte-level UTF-8 and the metadata pipeline -/

/-- A UTF-8 continuation byte, 0x80..0xBF. -/
def is_cont_byte (b : Nat) : Bool :=
  0x80 ≤ b && b ≤ 0xBF

/-- Modelled from the spec: `ThaiUtils::utf8_to_codepoints` /
`is_valid_utf8_sequence` delegate to `std::wstring_convert` /
`std::codecvt_utf8<char32_t>`, which are standard-library code not in
src/; the spec only requires decoding valid UTF-8 and rejecting invalid
sequences, modelled here as a standard UTF-8 decoder returning `none`
on a malformed sequence. -/
def utf8_decode : List Nat → Option (List Nat)
  | [] => some []
  | b :: bs =>
    if b ≤ 0x7F then
      (utf8_decode bs).map (fun cps => b :: cps)
    else if 0xC0 ≤ b ∧ b ≤ 0xDF then
      match bs with
      | b1 :: bs1 =>
        if is_cont_byte b1 then
          (utf8_decode bs1).map (fun cps =>
            ((b - 0xC0) * 0x40 + (b1 - 0x80)) :: cps)
        else none
      | [] => none
    else if 0xE0 ≤ b ∧ b ≤ 0xEF then
      match bs with
      | b1 :: b2 :: bs2 =>
        if is_cont_byte b1 && is_cont_byte b2 then
          (utf8_decode bs2).map (fun cps =>
            ((b - 0xE0) * 0x1000 + (b1 - 0x80) * 0x40 + (b2 - 0x80)) :: cps)
        else none
      | _ => none
    else if 0xF0 ≤ b ∧ b ≤ 0xF4 then
      match bs with
      | b1 :: b2 :: b3 :: bs3 =>
        if is_cont_byte b1 && is_cont_byte b2 && is_cont_byte b3 then
          (utf8_decode bs3).map (fun cps =>
            ((b - 0xF0) * 0x40000 + (b1 - 0x80) * 0x1000 +
             (b2 - 0x80) * 0x40 + (b3 - 0x80)) :: cps)
        else none
      | _ => none
    else none

/-- `ThaiUtils::utf8_to_codepoints`: decoding failures are caught and
yield an empty codepoint vector. -/
def utf8_to_codepoints (bs : List Nat) : List Nat :=
  (utf8_decode bs).getD []

/-- `ThaiProcessingError` (thai_metadata.h). -/
inductive ThaiProcessingError where
  | InvalidUTF8
  | ConversionFailed
deriving Repr, DecidableEq

/-- `ThaiCharsetConverter::utf8_to_dab_thai` on raw bytes: throws
`InvalidUTF8` when the input is not valid UTF-8, otherwise maps each
decoded codepoint. -/
def utf8_to_dab_thai_bytes (bs : List Nat) :
    Except ThaiProcessingError (List Nat) :=
  match utf8_decode bs with
  | none => .error .InvalidUTF8
  | some cps => .ok (cps.map dab_encode_char)

/-- `ThaiUtils::remove_control_characters` with unsigned-char semantics
(see the header comment): keep bytes ≥ 32 and tab/newline/CR. -/
def remove_control_characters (bs : List Nat) : List Nat :=
  bs.filter (fun c => 32 ≤ c || c == 9 || c == 10 || c == 13)

/-- `isspace` in the C locale on byte values. -/
def isspace_byte (b : Nat) : Bool :=
  b == 9 || b == 10 || b == 11 || b == 12 || b == 13 || b == 32

/-- The collapsing loop of `ThaiUtils::normalize_whitespace`:
whitespace runs become a single 0x20. -/
def normalize_ws_loop : List Nat → Bool → List Nat
  | [], _ => []
  | c :: rest, in_ws =>
    if isspace_byte c then
      if in_ws then normalize_ws_loop rest true
      else 0x20 :: normalize_ws_loop rest true
    else c :: normalize_ws_loop rest false

/-- `ThaiUtils::normalize_whitespace`: collapse whitespace runs, then
erase one leading and one trailing space (after collapsing, at most one
of each exists). -/
def normalize_whitespace (bs : List Nat) : List Nat :=
  let r := normalize_ws_loop bs false
  let r := if r.head? = some 0x20 then r.tail else r
  if r.getLast? = some 0x20 then r.dropLast else r

/-- `ThaiCharsetConverter::normalize_thai_text`: control-character
removal followed by whitespace normalization. -/
def normalize_thai_text (bs : List Nat) : List Nat :=
  normalize_whitespace (remove_control_characters bs)

/-- `ThaiMetadataProcessor::clean_metadata_field`: control characters,
whitespace, then `normalize_thai_text` again. -/
def clean_metadata_field (bs : List Nat) : List Nat :=
  normalize_thai_text (normalize_whitespace (remove_control_characters bs))

/-- `ThaiMetadata` (thai_metadata.h): UTF-8 and DAB byte variants of the
four fields, detection results and the Buddhist date.  The wall-clock
`timestamp` is replaced by the current Gregorian date passed to
`process_raw_metadata` as an argument. -/
structure ThaiMetadataRecord where
  title_utf8 : List Nat := []
  artist_utf8 : List Nat := []
  album_utf8 : List Nat := []
  station_utf8 : List Nat := []
  title_dab : List Nat := []
  artist_dab : List Nat := []
  album_dab : List Nat := []
  station_dab : List Nat := []
  is_thai_content : Bool := false
  thai_confidence : ℚ := 0
  buddhist_date : BuddhistDate := {}
deriving Repr, DecidableEq

/-- `ThaiMetadataProcessor::ProcessingStats` (without the wall-clock
`last_processed` timestamp). -/
structure ProcessingStats where
  total_metadata_processed : Nat := 0
  thai_content_detected : Nat := 0
  conversion_errors : Nat := 0
  average_thai_confidence : ℚ := 0
deriving Repr, DecidableEq

/-- The `try` block of `ThaiMetadataProcessor::process_raw_metadata`:
the four fields are converted in order; the first failing conversion
aborts the block, leaving the earlier DAB fields assigned and the rest
empty.  Returns the four DAB fields and whether an exception was
caught. -/
def try_convert_fields (t a al s : List Nat) :
    (List Nat × List Nat × List Nat × List Nat) × Bool :=
  match utf8_to_dab_thai_bytes t with
  | .error _ => (([], [], [], []), true)
  | .ok td =>
    match utf8_to_dab_thai_bytes a with
    | .error _ => ((td, [], [], []), true)
    | .ok ad =>
      match utf8_to_dab_thai_bytes al with
      | .error _ => ((td, ad, [], []), true)
      | .ok ald =>
        match utf8_to_dab_thai_bytes s with
        | .error _ => ((td, ad, ald, []), true)
        | .ok sd => ((td, ad, ald, sd), false)

/-- `ThaiMetadataProcessor::process_raw_metadata`: clean the four
fields, detect Thai on `title + " " + artist`, convert the fields
inside a try/catch when Thai is detected (a caught exception only
increments `conversion_errors`), attach the Buddhist date for the
current Gregorian date `(y, m, d)` and update the statistics. -/
def process_raw_metadata (stats : ProcessingStats) (y m d : Int)
    (raw_title raw_artist raw_album raw_station : List Nat) :
    ThaiMetadataRecord × ProcessingStats :=
  let t := clean_metadata_field raw_title
  let a := clean_metadata_field raw_artist
  let al := clean_metadata_field raw_album
  let s := clean_metadata_field raw_station
  let combined := t ++ [0x20] ++ a
  let thai := is_thai_text (utf8_to_codepoints combined) (7/10)
  let conf := get_thai_confidence (utf8_to_codepoints combined)
  let conv := if thai then try_convert_fields t a al s
              else (([], [], [], []), false)
  let record : ThaiMetadataRecord :=
    { title_utf8 := t, artist_utf8 := a, album_utf8 := al, station_utf8 := s
      title_dab := conv.1.1, artist_dab := conv.1.2.1
      album_dab := conv.1.2.2.1, station_dab := conv.1.2.2.2
      is_thai_content := thai, thai_confidence := conf
      buddhist_date := gregorian_to_buddhist y m d }
  let stats := { stats with
    conversion_errors := stats.conversion_errors + (if conv.2 then 1 else 0)
    total_metadata_processed := stats.total_metadata_processed + 1 }
  let stats := if thai then
      let n := stats.thai_content_detected + 1
      { stats with
        thai_content_detected := n
        average_thai_confidence :=
          (stats.average_thai_confidence * ((n : ℚ) - 1) + conf) / (n : ℚ) }
    else stats
  (record, stats)

/-! ## EnhancedStreamProcessor: connection management
(src/security_utils.cpp, enhanced_stream.h) -/

/-- The part of `StreamConfig` that the connection logic reads. -/
structure StreamConfig where
  primary_url : String
  fallback_urls : List String
deriving Repr, DecidableEq

/-- The part of `StreamQualityMetrics` that connection attempts change
and the claims track (the wall-clock `last_audio` refresh on success is
outside the model). -/
structure ConnMetrics where
  reconnect_count : Nat := 0
deriving Repr, DecidableEq

/-- Connection-related processor state: the atomics `running_`,
`connected_`, `current_fallback_index_`, the metrics, and whether
`vlc_input_` is non-null (set by `initialize`). -/
structure ProcState where
  running : Bool := false
  connected : Bool := false
  current_fallback_index : Int := -1
  metrics : ConnMetrics := {}
  vlc_present : Bool := true
deriving Repr, DecidableEq

/-- Outcome oracle for the externals used by `attempt_connection`:
`StreamUtils::test_stream_connectivity` and `VLCInput::open`. -/
structure ConnOracle where
  test_conn : String → Bool
  vlc_open : String → Bool

/-- A URL on which `attempt_connection` succeeds: the connectivity test
passes and the VLC open succeeds. -/
def reachable (o : ConnOracle) (u : String) : Bool :=
  o.test_conn u && o.vlc_open u

/-- `EnhancedStreamProcessor::attempt_connection`: fail when
`vlc_input_` is null or the connectivity test fails; on a successful
open, increment `reconnect_count`. -/
def attempt_connection (o : ConnOracle) (st : ProcState) (url : String) :
    Bool × ProcState :=
  if !st.vlc_present then (false, st)
  else if !o.test_conn url then (false, st)
  else if o.vlc_open url then
    (true, { st with metrics :=
      { st.metrics with reconnect_count := st.metrics.reconnect_count + 1 } })
  else (false, st)

/-- The fallback loop of `EnhancedStreamProcessor::start_stream`: try
each fallback URL in order starting at index `i`; on the first success
set `connected_` and `current_fallback_index_`. -/
def try_fallbacks (o : ConnOracle) : List String → Nat → ProcState →
    Bool × ProcState
  | [], _, st => (false, st)
  | u :: rest, i, st =>
    let r := attempt_connection o st u
    if r.1 then
      (true, { r.2 with connected := true, current_fallback_index := (i : Int) })
    else try_fallbacks o rest (i + 1) r.2

/-- `EnhancedStreamProcessor::start_stream`: no-op returning true when
already running; otherwise set `running_`, reset the fallback index,
try the primary URL and then each fallback in order; clear `running_`
and return false when everything fails.  (The monitor thread spawned on
success is outside the model.) -/
def start_stream (cfg : StreamConfig) (o : ConnOracle) (st : ProcState) :
    Bool × ProcState :=
  if st.running then (true, st)
  else
    let st1 := { st with running := true, current_fallback_index := -1 }
    let r := attempt_connection o st1 cfg.primary_url
    if r.1 then (true, { r.2 with connected := true })
    else
      let r2 := try_fallbacks o cfg.fallback_urls 0 r.2
      if r2.1 then r2
      else (false, { r2.2 with running := false })

/-- `EnhancedStreamProcessor::get_current_url`: the primary URL when the
fallback index is -1, the indexed fallback URL when in range, else the
empty string. -/
def get_current_url (cfg : StreamConfig) (st : ProcState) : String :=
  if st.current_fallback_index = -1 then cfg.primary_url
  else if st.current_fallback_index < (cfg.fallback_urls.length : Int) then
    cfg.fallback_urls.getD st.current_fallback_index.toNat ""
  else ""

/-! ## EnhancedStreamProcessor: audio quality and normalization -/

/-- Normalization state (`current_gain_`, `target_gain_`) with the
constant smoothing rate `gain_smoothing_ = 0.001`; C++ doubles are
modelled over `ℚ`. -/
structure GainState where
  current_gain : ℚ := 1
  target_gain : ℚ := 1
deriving Repr, DecidableEq

/-- `gain_smoothing_` (enhanced_stream.h). -/
def gain_smoothing : ℚ := 1/1000

/-- `EnhancedStreamProcessor::smooth_gain_transition`: exponential
smoothing of `current_gain_` toward `target_gain_`. -/
def smooth_gain_transition (g : GainState) : GainState :=
  { g with current_gain :=
      g.current_gain + (g.target_gain - g.current_gain) * gain_smoothing }

/-- The gain-state effect of `EnhancedStreamProcessor::apply_normalization`
for one sample block: when the block RMS exceeds 0.001, set
`target_gain_` to `target_rms / current_rms` clamped into [0.1, 4.0]
(`target_rms = 10^(target_level_db/20)` is precomputed by the caller
and passed in, the power being transcendental), then smooth.  The
per-sample gain application does not touch the gain state. -/
def apply_normalization_gain (target_rms current_rms : ℚ) (g : GainState) :
    GainState :=
  let g1 := if 1/1000 < current_rms then
      { g with target_gain := max (1/10) (min (target_rms / current_rms) 4) }
    else g
  smooth_gain_transition g1

/-- Repeated `normalize` calls at a constant input RMS, from the
construction-time state `current_gain_ = target_gain_ = 1.0`. -/
def normalize_iter (target_rms current_rms : ℚ) : Nat → GainState
  | 0 => {}
  | n + 1 => apply_normalization_gain target_rms current_rms
      (normalize_iter target_rms current_rms n)

/-- `EnhancedStreamProcessor::calculate_rms`: 0 for an empty block, else
the square root of the mean of the squared samples normalized by
32768. -/
noncomputable def calculate_rms (samples : List Int) : ℝ :=
  if samples = [] then 0
  else Real.sqrt
    (((samples.map (fun s : ℤ => ((s : ℝ) / 32768) ^ 2)).sum) / samples.length)

/-- `EnhancedStreamProcessor::detect_silence`:
`20 * log10(rms + 1e-10) < silence_threshold_db`. -/
noncomputable def detect_silence_db (samples : List Int) : ℝ :=
  20 * Real.logb 10 (calculate_rms samples + 1/10^10)

/-- `detect_silence` as a predicate on the configured threshold. -/
def detect_silence (silence_threshold_db : ℝ) (samples : List Int) : Prop :=
  detect_silence_db samples < silence_threshold_db

/-- Default `StreamConfig::silence_threshold_db` (enhanced_stream.h). -/
def default_silence_threshold_db : ℝ := -40

/-- The fields of `StreamQualityMetrics` written by
`update_quality_metrics` (the RMS history, SNR state and timestamps are
carried along; `is_silence` is a proposition because the comparison is
on real-valued logarithms). -/
structure QualityMetrics where
  volume_rms : ℝ := 0
  volume_peak : ℝ := 0
  is_silence : Prop := False
  snr_db : ℝ := 0

/-- `EnhancedStreamProcessor::calculate_peak`: largest absolute sample
normalized by 32768. -/
noncomputable def calculate_peak (samples : List Int) : ℝ :=
  if samples = [] then 0
  else (((samples.map Int.natAbs).max?).getD 0 : ℝ) / 32768

/-- `EnhancedStreamProcessor::update_quality_metrics` on the fields
modelled by `QualityMetrics`: an empty block leaves the metrics
untouched; otherwise RMS, peak and silence are recomputed, and the SNR
is updated only when the RMS exceeds the 0.001 noise floor. -/
noncomputable def update_quality_metrics (silence_threshold_db : ℝ)
    (m : QualityMetrics) (samples : List Int) : QualityMetrics :=
  if samples = [] then m
  else
    let rms := calculate_rms samples
    { volume_rms := rms
      volume_peak := calculate_peak samples
      is_silence := detect_silence silence_threshold_db samples
      snr_db := if (1/1000 : ℝ) < rms then 20 * Real.logb 10 (rms / (1/1000))
                else m.snr_db }

/-! ## Theorems -/

/-- C6 (counterexample): the claim says `gregorian_to_buddhist` marks
the date valid exactly when the month is in [1,12] and the day in
[1,31]; at year -543, month 1, day 1 the month and day are in range but
the result is invalid, because the code additionally requires the
Buddhist-era year to be positive. -/
theorem gregorian_to_buddhist_claim_counterexample :
    ((1:Int) ≤ 1 ∧ (1:Int) ≤ 12 ∧ (1:Int) ≤ 31) ∧
    (gregorian_to_buddhist (-543) 1 1).is_valid = false := by decide

/-- C6 (amended): `gregorian_to_buddhist(y,m,d)` returns the date with
year y+543 and month/day copied, marked valid, exactly when m ∈ [1,12],
d ∈ [1,31] and y+543 > 0; in particular (2024,1,15) gives
{2567,1,15,valid} and (2024,13,32) is invalid. -/
theorem gregorian_to_buddhist_spec :
    (∀ y m d : Int, gregorian_to_buddhist y m d =
      if 0 < y + 543 ∧ 1 ≤ m ∧ m ≤ 12 ∧ 1 ≤ d ∧ d ≤ 31 then
        { year := y + 543, month := m, day := d,
          thai_month_name := get_thai_month_name m, is_valid := true }
      else {}) ∧
    gregorian_to_buddhist 2024 1 15 =
      { year := 2567, month := 1, day := 15,
        thai_month_name := "มกราคม", is_valid := true } ∧
    (gregorian_to_buddhist 2024 13 32).is_valid = false := by
  refine ⟨fun y m d => ?_, by decide, by decide⟩
  have hb : is_valid_buddhist_date (y + 543) m d = true ↔
      (0 < y + 543 ∧ 1 ≤ m ∧ m ≤ 12 ∧ 1 ≤ d ∧ d ≤ 31) := by
    simp [is_valid_buddhist_date, and_assoc]
  rw [gregorian_to_buddhist]
  by_cases h : 0 < y + 543 ∧ 1 ≤ m ∧ m ≤ 12 ∧ 1 ≤ d ∧ d ≤ 31
  · rw [if_pos (hb.mpr h), if_pos h]
  · rw [if_neg (fun hc => h (hb.mp hc)), if_neg h]

/-- C1 (code bug, evaluation at the failing input): for the default
maximum of 128, an input of 128 ASCII characters has display width
128 ≤ 128, so the code emits the charset indicator plus 128 payload
bytes: 129 bytes, exceeding the claimed (and test-asserted) bound of
128. -/
theorem process_thai_text_overflow_eval :
    (process_thai_text MAX_DLS_LENGTH_THAI (List.replicate 128 0x41)).length
      = 129 := by decide

/-- The inverse table inverts every entry of the forward table. -/
theorem dab_table_inverse_entries :
    ∀ p ∈ utf8_to_dab_thai_map, dab_inverse_find p.2 = some p.1 := by decide

/-- C2: encoding a codepoint present in the mapping table and applying
the inverse mapping yields the original codepoint, and any codepoint
outside the table and outside ASCII 0x20..0x7F encodes to the
replacement byte 0x3F. -/
theorem utf8_to_dab_thai_roundtrip :
    (∀ cps : List Nat, (∀ cp ∈ cps, (dab_map_find cp).isSome) →
      (utf8_to_dab_thai cps).map dab_inverse_find = cps.map some) ∧
    (∀ cp : Nat, dab_map_find cp = none → ¬(0x20 ≤ cp ∧ cp ≤ 0x7F) →
      utf8_to_dab_thai [cp] = [0x3F]) := by
  constructor
  · intro cps h
    induction cps with
    | nil => rfl
    | cons cp rest ih =>
      have hcp := h cp (List.mem_cons_self cp rest)
      obtain ⟨b, hb⟩ := Option.isSome_iff_exists.mp hcp
      have henc : dab_encode_char cp = b := by
        simp [dab_encode_char, hb]
      obtain ⟨p, hfind, hsnd⟩ := Option.map_eq_some'.mp hb
      have hmem : p ∈ utf8_to_dab_thai_map :=
        List.mem_of_find?_eq_some hfind
      have hfst : p.1 = cp := by
        have := List.find?_some hfind
        simpa using this
      have hinv : dab_inverse_find b = some cp := by
        have := dab_table_inverse_entries p hmem
        rw [hsnd, hfst] at this
        exact this
      simp only [utf8_to_dab_thai, List.map_cons, List.map_map] at ih ⊢
      rw [henc, hinv]
      have := ih (fun c hc => h c (List.mem_cons_of_mem cp hc))
      simp only [utf8_to_dab_thai, List.map_map] at this
      rw [this]
  · intro cp hnone hascii
    simp [utf8_to_dab_thai, dab_encode_char, hnone, hascii]

/-- C2 witness: the Thai consonant U+0E01 (table byte 0x81) round-trips,
and U+0E2F, absent from the table and outside ASCII, encodes to 0x3F. -/
theorem utf8_to_dab_thai_roundtrip_witness :
    ((∀ cp ∈ [0x0E01], (dab_map_find cp).isSome) ∧
      (utf8_to_dab_thai [0x0E01]).map dab_inverse_find = [some 0x0E01]) ∧
    (dab_map_find 0x0E2F = none ∧ ¬(0x20 ≤ 0x0E2F ∧ 0x0E2F ≤ 0x7F) ∧
      utf8_to_dab_thai [0x0E2F] = [0x3F]) :=
  ⟨⟨by decide, utf8_to_dab_thai_roundtrip.1 [0x0E01] (by decide)⟩,
   ⟨by decide, by decide,
    utf8_to_dab_thai_roundtrip.2 0x0E2F (by decide) (by decide)⟩⟩

/-- Field effect of one `analyze_step` on the counters. -/
theorem analyze_step_fields (s0 : LanguageStats) (cp : Nat) :
    (analyze_step s0 cp).total_char_count = s0.total_char_count + 1 ∧
    (analyze_step s0 cp).thai_char_count
        = s0.thai_char_count + (if 0x0E00 ≤ cp ∧ cp ≤ 0x0E7F then 1 else 0) ∧
    (analyze_step s0 cp).english_char_count
        = s0.english_char_count
          + (if (0x41 ≤ cp ∧ cp ≤ 0x5A) ∨ (0x61 ≤ cp ∧ cp ≤ 0x7A) then 1
             else 0) ∧
    (analyze_step s0 cp).thai_percentage = s0.thai_percentage := by
  by_cases hthai : 0x0E00 ≤ cp ∧ cp ≤ 0x0E7F
  · have hlet : ¬((0x41 ≤ cp ∧ cp ≤ 0x5A) ∨ (0x61 ≤ cp ∧ cp ≤ 0x7A)) := by
      omega
    simp [analyze_step, hthai, hlet]
  · by_cases hlet : (0x41 ≤ cp ∧ cp ≤ 0x5A) ∨ (0x61 ≤ cp ∧ cp ≤ 0x7A)
    · simp [analyze_step, hthai, hlet]
    · simp [analyze_step, hthai, hlet]

/-- The analysis fold counts: totals, Thai-block codepoints and ASCII
letters (the Thai block and the letter ranges are disjoint, so the
`else if` in the loop counts exactly the ASCII letters). -/
theorem analyze_foldl_counts (cps : List Nat) : ∀ s0 : LanguageStats,
    (cps.foldl analyze_step s0).total_char_count
        = s0.total_char_count + cps.length ∧
    (cps.foldl analyze_step s0).thai_char_count
        = s0.thai_char_count
          + cps.countP (fun cp => decide (0x0E00 ≤ cp ∧ cp ≤ 0x0E7F)) ∧
    (cps.foldl analyze_step s0).english_char_count
        = s0.english_char_count
          + cps.countP (fun cp =>
              decide ((0x41 ≤ cp ∧ cp ≤ 0x5A) ∨ (0x61 ≤ cp ∧ cp ≤ 0x7A))) ∧
    (cps.foldl analyze_step s0).thai_percentage = s0.thai_percentage := by
  induction cps with
  | nil => intro s0; simp
  | cons cp rest ih =>
    intro s0
    obtain ⟨ih1, ih2, ih3, ih4⟩ := ih (analyze_step s0 cp)
    obtain ⟨hs1, hs2, hs3, hs4⟩ := analyze_step_fields s0 cp
    refine ⟨?_, ?_, ?_, ?_⟩
    · rw [List.foldl_cons, ih1, hs1, List.length_cons]
      omega
    · rw [List.foldl_cons, ih2, hs2, List.countP_cons]
      by_cases hthai : 0x0E00 ≤ cp ∧ cp ≤ 0x0E7F
      · simp [hthai]
        omega
      · simp [hthai]
    · rw [List.foldl_cons, ih3, hs3, List.countP_cons]
      by_cases hlet : (0x41 ≤ cp ∧ cp ≤ 0x5A) ∨ (0x61 ≤ cp ∧ cp ≤ 0x7A)
      · simp [hlet]
        omega
      · simp [hlet]
    · rw [List.foldl_cons, ih4, hs4]

/-- C7: `analyze_language_composition` counts each codepoint once,
classifying Thai-block codepoints and ASCII letters; the confidence is
`thai_char_count / total_char_count` (0 for the empty text, with the
`ℚ`-convention 0/0 = 0 agreeing with the code's untouched default),
lies in [0,1], and `is_thai_text` holds exactly when it reaches the
threshold. -/
theorem analyze_language_composition_spec :
    ∀ (cps : List Nat) (threshold : ℚ),
    (analyze_language_composition cps).total_char_count = cps.length ∧
    (analyze_language_composition cps).thai_char_count
        = cps.countP (fun cp => decide (0x0E00 ≤ cp ∧ cp ≤ 0x0E7F)) ∧
    (analyze_language_composition cps).english_char_count
        = cps.countP (fun cp =>
            decide ((0x41 ≤ cp ∧ cp ≤ 0x5A) ∨ (0x61 ≤ cp ∧ cp ≤ 0x7A))) ∧
    get_thai_confidence cps
        = ((analyze_language_composition cps).thai_char_count : ℚ)
          / ((analyze_language_composition cps).total_char_count : ℚ) ∧
    0 ≤ get_thai_confidence cps ∧ get_thai_confidence cps ≤ 1 ∧
    (is_thai_text cps threshold = true ↔
      threshold ≤ get_thai_confidence cps) := by
  intro cps threshold
  obtain ⟨h1, h2, h3, h4⟩ := analyze_foldl_counts cps ({} : LanguageStats)
  have hproj : (analyze_language_composition cps).total_char_count
        = (cps.foldl analyze_step ({} : LanguageStats)).total_char_count ∧
      (analyze_language_composition cps).thai_char_count
        = (cps.foldl analyze_step ({} : LanguageStats)).thai_char_count ∧
      (analyze_language_composition cps).english_char_count
        = (cps.foldl analyze_step ({} : LanguageStats)).english_char_count := by
    rw [analyze_language_composition]
    split
    · exact ⟨rfl, rfl, rfl⟩
    · exact ⟨rfl, rfl, rfl⟩
  have ht : (analyze_language_composition cps).total_char_count = cps.length := by
    rw [hproj.1, h1]
    simp [LanguageStats.total_char_count]
  have hth : (analyze_language_composition cps).thai_char_count
      = cps.countP (fun cp => decide (0x0E00 ≤ cp ∧ cp ≤ 0x0E7F)) := by
    rw [hproj.2.1, h2]
    simp [LanguageStats.thai_char_count]
  have hen : (analyze_language_composition cps).english_char_count
      = cps.countP (fun cp =>
          decide ((0x41 ≤ cp ∧ cp ≤ 0x5A) ∨ (0x61 ≤ cp ∧ cp ≤ 0x7A))) := by
    rw [hproj.2.2, h3]
    simp [LanguageStats.english_char_count]
  have hconf : get_thai_confidence cps
      = ((analyze_language_composition cps).thai_char_count : ℚ)
        / ((analyze_language_composition cps).total_char_count : ℚ) := by
    rcases eq_or_ne cps [] with hnil | hne
    · subst hnil
      rw [get_thai_confidence, if_pos rfl, ht, hth]
      simp
    · rw [get_thai_confidence, if_neg hne]
      have hpos : 0 < (cps.foldl analyze_step ({} : LanguageStats)).total_char_count := by
        rw [h1]
        simpa [LanguageStats.total_char_count] using List.length_pos.mpr hne
      rw [analyze_language_composition, if_pos hpos]
  have hle : (analyze_language_composition cps).thai_char_count
      ≤ (analyze_language_composition cps).total_char_count := by
    rw [ht, hth]
    exact List.countP_le_length _
  have h0 : 0 ≤ get_thai_confidence cps := by
    rw [hconf]
    positivity
  have h1' : get_thai_confidence cps ≤ 1 := by
    rw [hconf]
    rcases Nat.eq_zero_or_pos (analyze_language_composition cps).total_char_count
      with hz | hp
    · simp [hz]
    · rw [div_le_one (by exact_mod_cast hp)]
      exact_mod_cast hle
  refine ⟨ht, hth, hen, hconf, h0, h1', ?_⟩
  simp [is_thai_text]

/-- The truncate loop keeps a prefix of the input, spends at most
`max_length - cur` additional display units, and the first dropped
codepoint, when it exists, adds display width (is not a combining
mark). -/
theorem truncate_loop_spec (max_length : Nat) (cps : List Nat) :
    ∀ cur : Nat, cur ≤ max_length →
    ∃ k, k ≤ cps.length ∧
      truncate_loop max_length cps cur = cps.take k ∧
      cur + calculate_thai_display_length (cps.take k) ≤ max_length ∧
      is_zero_width (cps.getD k 0) = false := by
  induction cps with
  | nil =>
    intro cur hcur
    exact ⟨0, by simp, by simp [truncate_loop], by
      simpa [calculate_thai_display_length] using hcur, by
      simp [List.getD, is_zero_width, is_thai_vowel, is_thai_tone_mark]⟩
  | cons cp rest ih =>
    intro cur hcur
    by_cases hz : is_zero_width cp
    · -- combining mark: always kept, width unchanged
      obtain ⟨k, hk, heq, hwid, hdrop⟩ := ih cur hcur
      refine ⟨k + 1, by simpa using hk, ?_, ?_, ?_⟩
      · simp [truncate_loop, hz, heq, List.take_succ_cons]
      · simpa [List.take_succ_cons, calculate_thai_display_length, hz]
          using hwid
      · simpa using hdrop
    · -- width-adding codepoint
      by_cases hfull : max_length ≤ cur
      · -- budget exhausted: break, dropping cp
        have hcur' : cur = max_length := le_antisymm hcur hfull
        refine ⟨0, by simp, ?_, ?_, ?_⟩
        · rw [truncate_loop]
          simp [hz, hfull]
        · simpa [calculate_thai_display_length] using hcur
        · simpa using hz
      · -- budget left: keep cp, one unit spent
        have hlt : cur < max_length := lt_of_not_le hfull
        obtain ⟨k, hk, heq, hwid, hdrop⟩ := ih (cur + 1) hlt
        refine ⟨k + 1, by simpa using hk, ?_, ?_, ?_⟩
        · rw [truncate_loop]
          simp only [hz, Bool.not_false, Bool.true_and, decide_eq_true_eq]
          rw [if_neg hfull, List.take_succ_cons]
          simp only [hz, Bool.not_false, if_pos]
          rw [heq]
        · have : calculate_thai_display_length (cp :: List.take k rest)
              = calculate_thai_display_length (List.take k rest) + 1 := by
            simp [calculate_thai_display_length, hz]
          rw [List.take_succ_cons, this]
          omega
        · simpa using hdrop

/-- C3: `truncate_thai_text(s, n)` returns a prefix of the codepoint
sequence whose display length is at most `n`, and the first dropped
codepoint (when anything is dropped) is never one of the trailing
combining marks (non-spacing vowels U+0E31..U+0E3A, tone marks, the
cancellation mark U+0E4C), so a base character is never separated from
its combining marks. -/
theorem truncate_thai_text_spec (cps : List Nat) (n : Nat) :
    ∃ k, k ≤ cps.length ∧
      truncate_thai_text cps n = cps.take k ∧
      calculate_thai_display_length (truncate_thai_text cps n) ≤ n ∧
      is_zero_width (cps.getD k 0) = false := by
  rw [truncate_thai_text]
  by_cases hfit : calculate_thai_display_length cps ≤ n
  · refine ⟨cps.length, le_refl _, ?_, ?_, ?_⟩
    · rw [if_pos hfit, List.take_length]
    · rw [if_pos hfit]
      exact hfit
    · rw [List.getD_eq_default]
      · simp [is_zero_width, is_thai_vowel, is_thai_tone_mark]
      · exact le_refl _
  · obtain ⟨k, hk, heq, hwid, hdrop⟩ :=
      truncate_loop_spec n cps 0 (Nat.zero_le n)
    refine ⟨k, hk, ?_, ?_, hdrop⟩
    · rw [if_neg hfit]
      exact heq
    · rw [if_neg hfit, heq]
      simpa using hwid

/-- One exponential-smoothing step scales the distance to the target by
1 - 0.001, so the distance never increases. -/
theorem smooth_step_distance (t c : ℚ) :
    |t - (c + (t - c) * (1/1000))| ≤ |t - c| := by
  have h : t - (c + (t - c) * (1/1000)) = (t - c) * (999/1000) := by ring
  rw [h, abs_mul, abs_of_nonneg (by norm_num : (0:ℚ) ≤ 999/1000)]
  nlinarith [abs_nonneg (t - c)]

/-- Gain-state invariant: both gains stay in [0.1, 4.0] across
`normalize_iter`. -/
theorem normalize_iter_invariant (target_rms current_rms : ℚ) (n : Nat) :
    (1/10 ≤ (normalize_iter target_rms current_rms n).current_gain ∧
      (normalize_iter target_rms current_rms n).current_gain ≤ 4) ∧
    (1/10 ≤ (normalize_iter target_rms current_rms n).target_gain ∧
      (normalize_iter target_rms current_rms n).target_gain ≤ 4) := by
  induction n with
  | zero =>
    constructor <;> constructor <;> norm_num [normalize_iter, GainState.current_gain,
      GainState.target_gain]
  | succ n ih =>
    obtain ⟨⟨hc1, hc2⟩, ⟨ht1, ht2⟩⟩ := ih
    set g := normalize_iter target_rms current_rms n with hg
    have hstep : normalize_iter target_rms current_rms (n + 1)
        = apply_normalization_gain target_rms current_rms g := rfl
    rw [hstep, apply_normalization_gain]
    by_cases hr : 1/1000 < current_rms
    · rw [if_pos hr, smooth_gain_transition]
      have htlo : 1/10 ≤ max (1/10) (min (target_rms / current_rms) 4) :=
        le_max_left _ _
      have hthi : max (1/10) (min (target_rms / current_rms) 4) ≤ 4 :=
        max_le (by norm_num) (min_le_right _ _)
      refine ⟨⟨?_, ?_⟩, ⟨htlo, hthi⟩⟩ <;>
        simp only [GainState.current_gain, gain_smoothing] <;> linarith
    · rw [if_neg hr, smooth_gain_transition]
      refine ⟨⟨?_, ?_⟩, ⟨ht1, ht2⟩⟩ <;>
        simp only [GainState.current_gain, gain_smoothing] <;> linarith

/-- C4: under repeated `apply_normalization` calls at a constant input
RMS the smoothing step never increases the distance between
`current_gain_` and `target_gain_` (from the second call on, once the
target has settled to its clamped value), and starting from
`current_gain_ = 1.0` the current gain stays within [0.1, 4.0] at every
iteration. -/
theorem apply_normalization_gain_spec :
    (∀ (target_rms current_rms : ℚ) (g : GainState),
      |(apply_normalization_gain target_rms current_rms
          (apply_normalization_gain target_rms current_rms g)).target_gain
        - (apply_normalization_gain target_rms current_rms
            (apply_normalization_gain target_rms current_rms g)).current_gain|
      ≤ |(apply_normalization_gain target_rms current_rms g).target_gain
          - (apply_normalization_gain target_rms current_rms g).current_gain|) ∧
    (∀ (target_rms current_rms : ℚ) (n : Nat),
      1/10 ≤ (normalize_iter target_rms current_rms n).current_gain ∧
      (normalize_iter target_rms current_rms n).current_gain ≤ 4) := by
  constructor
  · intro target_rms current_rms g
    by_cases hr : 1/1000 < current_rms
    · simp only [apply_normalization_gain, if_pos hr, smooth_gain_transition,
        gain_smoothing, GainState.current_gain, GainState.target_gain]
      exact smooth_step_distance _ _
    · simp only [apply_normalization_gain, if_neg hr, smooth_gain_transition,
        gain_smoothing, GainState.current_gain, GainState.target_gain]
      exact smooth_step_distance _ _
  · intro target_rms current_rms n
    exact (normalize_iter_invariant target_rms current_rms n).1

/-- Full case analysis of `attempt_connection`: it succeeds exactly
when the VLC handle exists and the URL is reachable, incrementing the
reconnect counter on success and leaving the state unchanged on
failure. -/
theorem attempt_connection_cases (o : ConnOracle) (st : ProcState)
    (url : String) :
    (attempt_connection o st url).1 = (st.vlc_present && reachable o url) ∧
    (attempt_connection o st url).2 =
      (if st.vlc_present && reachable o url then
        { st with metrics :=
          { reconnect_count := st.metrics.reconnect_count + 1 } }
       else st) := by
  rw [attempt_connection]
  by_cases hv : st.vlc_present
  · by_cases ht : o.test_conn url
    · by_cases hopen : o.vlc_open url
      · simp [hv, ht, hopen, reachable]
      · simp [hv, ht, hopen, reachable]
    · simp [hv, ht, reachable]
  · simp [hv]

/-- The fallback loop succeeds exactly when some fallback URL is
reachable. -/
theorem try_fallbacks_fst (o : ConnOracle) (urls : List String) :
    ∀ (i : Nat) (st : ProcState), st.vlc_present = true →
    (try_fallbacks o urls i st).1 = urls.any (reachable o) := by
  induction urls with
  | nil => intro i st _; simp [try_fallbacks]
  | cons u rest ih =>
    intro i st hv
    obtain ⟨h1, h2⟩ := attempt_connection_cases o st u
    rw [try_fallbacks]
    by_cases hu : reachable o u
    · simp only [h1, hv, hu, Bool.and_true, Bool.true_and, if_pos]
      simp [hu]
    · have hfail : (st.vlc_present && reachable o u) = false := by
        simp [hu]
      have h2' : (attempt_connection o st u).2 = st := by
        rw [h2, hfail]
        simp
      simp only [h1, hfail, Bool.false_eq_true, if_false, h2']
      rw [ih (i + 1) st hv]
      simp [hu]

/-- A successful pass of the fallback loop increments the reconnect
counter exactly once. -/
theorem try_fallbacks_count (o : ConnOracle) (urls : List String) :
    ∀ (i : Nat) (st : ProcState), (try_fallbacks o urls i st).1 = true →
    (try_fallbacks o urls i st).2.metrics.reconnect_count
      = st.metrics.reconnect_count + 1 := by
  induction urls with
  | nil => intro i st h; simp [try_fallbacks] at h
  | cons u rest ih =>
    intro i st h
    obtain ⟨h1, h2⟩ := attempt_connection_cases o st u
    rw [try_fallbacks] at h ⊢
    by_cases hc : st.vlc_present && reachable o u
    · simp only [h1, hc, if_pos]
      rw [h2, if_pos hc]
    · have h2' : (attempt_connection o st u).2 = st := by
        rw [h2, if_neg hc]
      simp only [h1, hc, Bool.false_eq_true, if_false, h2'] at h ⊢
      exact ih (i + 1) st h

/-- When the first `j` fallbacks are unreachable and the `j`-th is
reachable, the fallback loop stops there: connected, fallback index
`i + j`, reconnect counter incremented once. -/
theorem try_fallbacks_hit (o : ConnOracle) (urls : List String) :
    ∀ (i : Nat) (st : ProcState) (j : Nat), st.vlc_present = true →
    j < urls.length →
    (urls.take j).all (fun u => !reachable o u) = true →
    reachable o (urls.getD j "") = true →
    try_fallbacks o urls i st =
      (true, { running := st.running, connected := true,
               current_fallback_index := ((i + j : Nat) : Int),
               metrics := { reconnect_count := st.metrics.reconnect_count + 1 },
               vlc_present := st.vlc_present }) := by
  induction urls with
  | nil => intro i st j _ hj _ _; simp at hj
  | cons u rest ih =>
    intro i st j hv hj hall hreach
    obtain ⟨h1, h2⟩ := attempt_connection_cases o st u
    match j with
    | 0 =>
      have hu : reachable o u = true := by simpa using hreach
      have hcond : (st.vlc_present && reachable o u) = true := by
        simp [hv, hu]
      rw [try_fallbacks]
      simp only [h1, hcond, if_pos]
      rw [h2, if_pos hcond]
      simp
    | j' + 1 =>
      have hu : reachable o u = false := by
        have := hall
        simp [List.take_succ_cons, List.all_cons] at this
        simpa using this.1
      have hcond : (st.vlc_present && reachable o u) = false := by
        simp [hu]
      have h2' : (attempt_connection o st u).2 = st := by
        rw [h2, if_neg (by simp [hcond])]
      rw [try_fallbacks]
      simp only [h1, hcond, Bool.false_eq_true, if_false, h2']
      have hall' : (rest.take j').all (fun u => !reachable o u) = true := by
        have := hall
        simp [List.take_succ_cons, List.all_cons] at this
        simpa using this.2
      have hj' : j' < rest.length := by simpa using hj
      have hreach' : reachable o (rest.getD j' "") = true := by
        simpa [List.getD] using hreach
      have := ih (i + 1) st j' hv hj' hall' hreach'
      rw [this]
      congr 2
      omega

/-- Unfolding of `start_stream` for a fresh (not running, initialized)
state: a reachable primary URL connects immediately with the counter
incremented; otherwise the fallback loop decides the outcome. -/
theorem start_stream_eq (cfg : StreamConfig) (o : ConnOracle)
    (st : ProcState) (hrun : st.running = false)
    (hv : st.vlc_present = true) :
    start_stream cfg o st =
      (if reachable o cfg.primary_url then
        (true, { running := true, connected := true,
                 current_fallback_index := -1,
                 metrics :=
                   { reconnect_count := st.metrics.reconnect_count + 1 },
                 vlc_present := true })
      else
        (if (try_fallbacks o cfg.fallback_urls 0
              { running := true, connected := st.connected,
                current_fallback_index := -1,
                metrics := st.metrics, vlc_present := true }).1 then
          try_fallbacks o cfg.fallback_urls 0
            { running := true, connected := st.connected,
              current_fallback_index := -1,
              metrics := st.metrics, vlc_present := true }
        else
          (false,
            { (try_fallbacks o cfg.fallback_urls 0
                { running := true, connected := st.connected,
                  current_fallback_index := -1,
                  metrics := st.metrics, vlc_present := true }).2 with
              running := false }))) := by
  by_cases ht : o.test_conn cfg.primary_url
  · by_cases ho : o.vlc_open cfg.primary_url
    · simp [start_stream, attempt_connection, reachable, hrun, hv, ht, ho]
    · simp [start_stream, attempt_connection, reachable, hrun, hv, ht, ho]
  · simp [start_stream, attempt_connection, reachable, hrun, hv, ht]

/-- C5: `start_stream` (from a freshly initialized, not-running state)
succeeds exactly when the primary URL or some fallback URL is
reachable; a reachable primary is used first, and with an unreachable
primary the first reachable fallback (all earlier ones unreachable)
becomes the current URL. -/
theorem start_stream_spec :
    ∀ (cfg : StreamConfig) (o : ConnOracle) (st : ProcState),
      st.running = false → st.vlc_present = true →
      ((start_stream cfg o st).1
          = (reachable o cfg.primary_url ||
             cfg.fallback_urls.any (reachable o))) ∧
      (reachable o cfg.primary_url = true →
        (start_stream cfg o st).2.connected = true ∧
        get_current_url cfg (start_stream cfg o st).2 = cfg.primary_url) ∧
      (reachable o cfg.primary_url = false →
        ∀ j : Nat, j < cfg.fallback_urls.length →
          (cfg.fallback_urls.take j).all (fun u => !reachable o u) = true →
          reachable o (cfg.fallback_urls.getD j "") = true →
          (start_stream cfg o st).1 = true ∧
          (start_stream cfg o st).2.connected = true ∧
          get_current_url cfg (start_stream cfg o st).2
            = cfg.fallback_urls.getD j "") := by
  intro cfg o st hrun hv
  rw [start_stream_eq cfg o st hrun hv]
  refine ⟨?_, ?_, ?_⟩
  · -- return value equals: primary reachable or some fallback reachable
    by_cases hp : reachable o cfg.primary_url
    · simp [hp]
    · simp only [hp, Bool.false_eq_true, if_false, Bool.false_or]
      rw [← try_fallbacks_fst o cfg.fallback_urls 0
        { running := true, connected := st.connected,
          current_fallback_index := -1,
          metrics := st.metrics, vlc_present := true } rfl]
      by_cases hr2 : (try_fallbacks o cfg.fallback_urls 0
          { running := true, connected := st.connected,
            current_fallback_index := -1,
            metrics := st.metrics, vlc_present := true }).1
      · simp [hr2]
      · simp [hr2]
  · -- primary reachable: connected on the primary URL
    intro hp
    simp [hp, get_current_url]
  · -- primary unreachable: first reachable fallback wins
    intro hp j hj hall hreach
    simp only [hp, Bool.false_eq_true, if_false]
    rw [try_fallbacks_hit o cfg.fallback_urls 0
      { running := true, connected := st.connected,
        current_fallback_index := -1,
        metrics := st.metrics, vlc_present := true } j rfl hj hall hreach]
    have hne : ¬(((0 + j : Nat) : Int) = -1) := by omega
    have hlt : ((0 + j : Nat) : Int) < (cfg.fallback_urls.length : Int) := by
      omega
    refine ⟨by simp, by simp, ?_⟩
    simp [get_current_url, hne, hlt]
    intro hcontra
    exact absurd hj (Nat.not_lt.mpr hcontra)

/-- C10: every successful `attempt_connection` increments
`reconnect_count` by exactly one, so a successful `start_stream` from a
fresh state reports `reconnect_count = old + 1 ≥ 1` even though no
reconnection has occurred: the counter counts successful connection
attempts, not reconnections. -/
theorem reconnect_count_counts_connections :
    (∀ (o : ConnOracle) (st : ProcState) (url : String),
      (attempt_connection o st url).1 = true →
      (attempt_connection o st url).2.metrics.reconnect_count
        = st.metrics.reconnect_count + 1) ∧
    (∀ (cfg : StreamConfig) (o : ConnOracle) (st : ProcState),
      st.running = false → st.vlc_present = true →
      (start_stream cfg o st).1 = true →
      (start_stream cfg o st).2.metrics.reconnect_count
        = st.metrics.reconnect_count + 1) := by
  constructor
  · intro o st url h
    obtain ⟨h1, h2⟩ := attempt_connection_cases o st url
    rw [h1] at h
    rw [h2, if_pos h]
  · intro cfg o st hrun hv hok
    rw [start_stream_eq cfg o st hrun hv] at hok ⊢
    by_cases hp : reachable o cfg.primary_url
    · simp [hp]
    · simp only [hp, Bool.false_eq_true, if_false] at hok ⊢
      by_cases hr2 : (try_fallbacks o cfg.fallback_urls 0
          { running := true, connected := st.connected,
            current_fallback_index := -1,
            metrics := st.metrics, vlc_present := true }).1
      · simp only [hr2, if_pos]
        exact try_fallbacks_count o cfg.fallback_urls 0 _ hr2
      · simp [hr2] at hok

/-- Demonstration configuration for the failover scenario: primary "P"
and fallbacks ["F0", "F1"]. -/
def demo_cfg : StreamConfig :=
  { primary_url := "P", fallback_urls := ["F0", "F1"] }

/-- Demonstration oracle: only "F1" is reachable. -/
def demo_oracle : ConnOracle :=
  { test_conn := fun u => u == "F1", vlc_open := fun _ => true }

/-- A freshly initialized processor state. -/
def demo_state : ProcState := {}

/-- C5 witness: with primary "P" unreachable and fallbacks
["F0" unreachable, "F1" reachable], `start_stream` succeeds, connects,
and the current URL is "F1". -/
theorem start_stream_spec_witness :
    (demo_state.running = false ∧ demo_state.vlc_present = true ∧
      reachable demo_oracle demo_cfg.primary_url = false ∧
      1 < demo_cfg.fallback_urls.length ∧
      (demo_cfg.fallback_urls.take 1).all
        (fun u => !reachable demo_oracle u) = true ∧
      reachable demo_oracle (demo_cfg.fallback_urls.getD 1 "") = true) ∧
    ((start_stream demo_cfg demo_oracle demo_state).1 = true ∧
      (start_stream demo_cfg demo_oracle demo_state).2.connected = true ∧
      get_current_url demo_cfg
        (start_stream demo_cfg demo_oracle demo_state).2 = "F1") := by
  refine ⟨⟨rfl, rfl, by decide, by decide, by decide, by decide⟩, ?_⟩
  exact (start_stream_spec demo_cfg demo_oracle demo_state rfl rfl).2.2
    (by decide) 1 (by decide) (by decide) (by decide)

/-- C10 witness: in the same scenario the fresh processor ends a
successful `start_stream` (and a successful direct connection attempt)
with `reconnect_count` incremented from 0 to 1. -/
theorem reconnect_count_counts_connections_witness :
    ((attempt_connection demo_oracle demo_state "F1").1 = true ∧
      (attempt_connection demo_oracle demo_state "F1").2.metrics.reconnect_count
        = demo_state.metrics.reconnect_count + 1) ∧
    ((start_stream demo_cfg demo_oracle demo_state).1 = true ∧
      (start_stream demo_cfg demo_oracle demo_state).2.metrics.reconnect_count
        = demo_state.metrics.reconnect_count + 1) := by
  refine ⟨⟨by decide, ?_⟩, ⟨by decide, ?_⟩⟩
  · exact reconnect_count_counts_connections.1 demo_oracle demo_state "F1"
      (by decide)
  · exact reconnect_count_counts_connections.2 demo_cfg demo_oracle demo_state
      rfl rfl (by decide)

/-- RMS of a nonempty all-zero block is exactly 0. -/
theorem calculate_rms_all_zero (samples : List Int) (hne : samples ≠ [])
    (hz : ∀ s ∈ samples, s = 0) : calculate_rms samples = 0 := by
  rw [calculate_rms, if_neg hne]
  have hmap : samples.map (fun s : ℤ => ((s : ℝ) / 32768) ^ 2)
      = samples.map (fun _ => (0 : ℝ)) := by
    apply List.map_congr_left
    intro a ha
    rw [hz a ha]
    norm_num
  have hsum : (samples.map (fun s : ℤ => ((s : ℝ) / 32768) ^ 2)).sum = 0 := by
    rw [hmap]
    simp
  rw [hsum, zero_div, Real.sqrt_zero]

/-- The logarithm of the silence-detection epsilon: log10(1e-10) = -10. -/
theorem logb_epsilon : Real.logb 10 ((1 : ℝ)/10^10) = -10 := by
  have hlog : Real.log 10 ≠ 0 :=
    ne_of_gt (Real.log_pos (by norm_num))
  rw [one_div, Real.logb, Real.log_inv, Real.log_pow]
  field_simp

/-- C8: `update_quality_metrics` records
`is_silence ↔ 20·log10(rms + 1e-10) < silence_threshold_db` together
with the block's RMS, and a nonempty all-zero block yields rms = 0 and
is detected as silence at the default -40 dB threshold. -/
theorem silence_detection_spec :
    (∀ (thr : ℝ) (metrics : QualityMetrics) (samples : List Int),
      samples ≠ [] →
      (((update_quality_metrics thr metrics samples).is_silence ↔
          20 * Real.logb 10 (calculate_rms samples + 1/10^10) < thr) ∧
        (update_quality_metrics thr metrics samples).volume_rms
          = calculate_rms samples)) ∧
    (∀ (metrics : QualityMetrics) (samples : List Int), samples ≠ [] →
      (∀ s ∈ samples, s = 0) →
      (update_quality_metrics default_silence_threshold_db metrics
          samples).volume_rms = 0 ∧
      (update_quality_metrics default_silence_threshold_db metrics
          samples).is_silence) := by
  constructor
  · intro thr metrics samples hne
    rw [update_quality_metrics, if_neg hne]
    exact ⟨Iff.rfl, rfl⟩
  · intro metrics samples hne hz
    rw [update_quality_metrics, if_neg hne]
    have hrms : calculate_rms samples = 0 := calculate_rms_all_zero samples hne hz
    refine ⟨hrms, ?_⟩
    show detect_silence default_silence_threshold_db samples
    rw [detect_silence, detect_silence_db, hrms, zero_add, logb_epsilon,
      default_silence_threshold_db]
    norm_num

/-- C8 witness: the one-sample zero block [0] has rms 0 and is silence
at the default threshold. -/
theorem silence_detection_spec_witness :
    (([0] : List Int) ≠ [] ∧ (∀ s ∈ ([0] : List Int), s = 0)) ∧
    ((update_quality_metrics default_silence_threshold_db {}
        ([0] : List Int)).volume_rms = 0 ∧
      (update_quality_metrics default_silence_threshold_db {}
        ([0] : List Int)).is_silence) :=
  ⟨⟨by simp, by simp⟩,
   silence_detection_spec.2 {} ([0] : List Int) (by simp) (by simp)⟩

/-- The try-block flag is set exactly when the conversion of one of the
four (cleaned) fields raises, i.e. when its UTF-8 decoding fails. -/
theorem try_convert_fields_flag (t a al s : List Nat) :
    (try_convert_fields t a al s).2 = true ↔
      (utf8_decode t = none ∨ utf8_decode a = none ∨
       utf8_decode al = none ∨ utf8_decode s = none) := by
  rcases ht : utf8_decode t with _ | cpt
  · simp [try_convert_fields, utf8_to_dab_thai_bytes, ht]
  · rcases ha : utf8_decode a with _ | cpa
    · simp [try_convert_fields, utf8_to_dab_thai_bytes, ht, ha]
    · rcases hal : utf8_decode al with _ | cpal
      · simp [try_convert_fields, utf8_to_dab_thai_bytes, ht, ha, hal]
      · rcases hs : utf8_decode s with _ | cps
        · simp [try_convert_fields, utf8_to_dab_thai_bytes, ht, ha, hal, hs]
        · simp [try_convert_fields, utf8_to_dab_thai_bytes, ht, ha, hal, hs]

/-- C9: `process_raw_metadata` is a total function (no exception
escapes): the returned record always carries the four cleaned UTF-8
fields and the processed counter always increments; when Thai content
is detected and the conversion of one of the cleaned fields raises
(its UTF-8 decoding fails), the caught exception increments
`conversion_errors` by exactly one. -/
theorem process_raw_metadata_spec :
    (∀ (stats : ProcessingStats) (y m d : Int) (t a al s : List Nat),
      (process_raw_metadata stats y m d t a al s).1.title_utf8
          = clean_metadata_field t ∧
      (process_raw_metadata stats y m d t a al s).1.artist_utf8
          = clean_metadata_field a ∧
      (process_raw_metadata stats y m d t a al s).1.album_utf8
          = clean_metadata_field al ∧
      (process_raw_metadata stats y m d t a al s).1.station_utf8
          = clean_metadata_field s ∧
      (process_raw_metadata stats y m d t a al s).2.total_metadata_processed
          = stats.total_metadata_processed + 1) ∧
    (∀ (stats : ProcessingStats) (y m d : Int) (t a al s : List Nat),
      (process_raw_metadata stats y m d t a al s).1.is_thai_content = true →
      (utf8_decode (clean_metadata_field t) = none ∨
       utf8_decode (clean_metadata_field a) = none ∨
       utf8_decode (clean_metadata_field al) = none ∨
       utf8_decode (clean_metadata_field s) = none) →
      (process_raw_metadata stats y m d t a al s).2.conversion_errors
          = stats.conversion_errors + 1) := by
  constructor
  · intro stats y m d t a al s
    refine ⟨rfl, rfl, rfl, rfl, ?_⟩
    by_cases hthai : is_thai_text (utf8_to_codepoints
        (clean_metadata_field t ++ 0x20 :: clean_metadata_field a)) (7/10)
        = true
    · simp [process_raw_metadata, hthai]
    · simp [process_raw_metadata, hthai]
  · intro stats y m d t a al s hth hfail
    have hthai : is_thai_text (utf8_to_codepoints
        (clean_metadata_field t ++ [0x20] ++ clean_metadata_field a)) (7/10)
        = true := hth
    simp only [List.append_assoc, List.singleton_append] at hthai
    have hflag : (try_convert_fields (clean_metadata_field t)
        (clean_metadata_field a) (clean_metadata_field al)
        (clean_metadata_field s)).2 = true :=
      (try_convert_fields_flag _ _ _ _).mpr hfail
    simp [process_raw_metadata, hthai, hflag]

/-- Raw demonstration title, the UTF-8 bytes of two Thai ko-kai
consonants. -/
def demo_title_bytes : List Nat := [0xE0, 0xB8, 0x81, 0xE0, 0xB8, 0x81]

/-- Raw demonstration album: a lone invalid UTF-8 byte. -/
def demo_album_bytes : List Nat := [0xFF]

/-- C9 witness: with a Thai title/artist and an album whose cleaned
bytes are invalid UTF-8, Thai content is detected, the album
conversion raises, and the call still completes with the cleaned
fields, the processed counter incremented, and exactly one counted
conversion error. -/
theorem process_raw_metadata_demo_thai :
    (process_raw_metadata {} 2024 1 15 demo_title_bytes demo_title_bytes
        demo_album_bytes []).1.is_thai_content = true := by
  have hcontent : (process_raw_metadata {} 2024 1 15 demo_title_bytes
        demo_title_bytes demo_album_bytes []).1.is_thai_content
      = is_thai_text (utf8_to_codepoints (clean_metadata_field demo_title_bytes
          ++ [0x20] ++ clean_metadata_field demo_title_bytes)) (7/10) := rfl
  have hcps : utf8_to_codepoints (clean_metadata_field demo_title_bytes
        ++ [0x20] ++ clean_metadata_field demo_title_bytes)
      = [0x0E01, 0x0E01, 0x20, 0x0E01, 0x0E01] := by decide
  rw [hcontent, hcps]
  obtain ⟨ht, hth, _, hconf, _, _, hiff⟩ :=
    analyze_language_composition_spec [0x0E01, 0x0E01, 0x20, 0x0E01, 0x0E01]
      (7/10)
  apply hiff.mpr
  rw [hconf, hth, ht]
  have hc : ([0x0E01, 0x0E01, 0x20, 0x0E01, 0x0E01].countP
      (fun cp => decide (0x0E00 ≤ cp ∧ cp ≤ 0x0E7F))) = 4 := by decide
  rw [hc]
  norm_num

/-- C9 witness: with a Thai title/artist and an album whose cleaned
bytes are invalid UTF-8, Thai content is detected, the album
conversion raises, and the call still completes with the cleaned
fields, the processed counter incremented, and exactly one counted
conversion error. -/
theorem process_raw_metadata_spec_witness :
    ((process_raw_metadata {} 2024 1 15 demo_title_bytes demo_title_bytes
        demo_album_bytes []).1.is_thai_content = true ∧
      utf8_decode (clean_metadata_field demo_album_bytes) = none) ∧
    ((process_raw_metadata {} 2024 1 15 demo_title_bytes demo_title_bytes
        demo_album_bytes []).1.album_utf8
        = clean_metadata_field demo_album_bytes ∧
      (process_raw_metadata {} 2024 1 15 demo_title_bytes demo_title_bytes
        demo_album_bytes []).2.total_metadata_processed = 1 ∧
      (process_raw_metadata {} 2024 1 15 demo_title_bytes demo_title_bytes
        demo_album_bytes []).2.conversion_errors = 1) := by
  refine ⟨⟨process_raw_metadata_demo_thai, by decide⟩, ?_, ?_, ?_⟩
  · exact (process_raw_metadata_spec.1 {} 2024 1 15 demo_title_bytes
      demo_title_bytes demo_album_bytes []).2.2.1
  · exact (process_raw_metadata_spec.1 {} 2024 1 15 demo_title_bytes
      demo_title_bytes demo_album_bytes []).2.2.2.2
  · exact process_raw_metadata_spec.2 {} 2024 1 15 demo_title_bytes
      demo_title_bytes demo_album_bytes [] process_raw_metadata_demo_thai
      (Or.inr (Or.inr (Or.inl (by decide))))

end StreamDAB








